import Mathlib

/-!
Verification development for the request-admission and response-caching core
of the legal-chat backend: the rate limiter (`security/rate_limiter.py`), the
IP blocklist/whitelist (`security/ip_blocker.py`), the admission middleware
(`security/security_middleware.py`) and the semantic response cache
(`cache/cache_strategies.py`), together with the KV store adapter
(`cache/redis_cache.py`) they are built on.

The stateful Python code is embedded shallowly: the shared Redis-like store
becomes an explicit state record that every operation threads through, and
each operation additionally returns the list of store operations it issued,
so that "component X was never consulted" becomes a statement about that
trace.  Timestamps (`time.time()` floats) are modelled as rationals; Python
`int(...)` on a nonnegative time is the floor.  Within-window behaviour is
modelled without clock-driven key expiry: TTLs are recorded by `setex` /
`expire` and read back by `ttl`, which is exact as long as no key expires
between the operations under study (all claims below are about single-window
scenarios or are expiry-independent).
-/

namespace AILaw

/-! ## Rate limiter (`security/rate_limiter.py`)

The limiter stores, per `(identifier, endpoint)` pair, two integer counters
(minute and hour windows) and one sliding-window sorted set for burst
detection.  In Redis the sorted set maps member strings to scores; the code
always uses `str(current_time)` as the member with score `current_time`, and
`str` is injective on the float clock readings, so the member map is
represented by the finite set of recorded timestamps. -/

/-- Configuration of `RateLimiter.__init__` (defaults 30/minute, 500/hour,
burst 10). -/
structure RLConfig where
  ratePerMinute : Nat
  ratePerHour : Nat
  burst : Nat
deriving DecidableEq

/-- The slice of the shared KV store the rate limiter touches.
`available = false` models `self.cache.client` being the disconnected
sentinel `None`. -/
structure RLStore where
  available : Bool
  counters : String → Option Nat
  ttls : String → Option Nat
  zsets : String → Finset ℚ

/-- Store operations issued by the limiter, recorded as a trace. -/
inductive RLOp where
  | get (key : String)
  | setex (key : String) (ttl : Nat) (v : Nat)
  | incr (key : String)
  | ttl (key : String)
  | zadd (key : String) (t : ℚ)
  | zremrangebyscore (key : String) (lo hi : ℚ)
  | zcard (key : String)
  | expire (key : String) (seconds : Nat)
deriving DecidableEq

/-- The key an operation addresses. -/
def RLOp.key : RLOp → String
  | .get k => k
  | .setex k _ _ => k
  | .incr k => k
  | .ttl k => k
  | .zadd k _ => k
  | .zremrangebyscore k _ _ => k
  | .zcard k => k
  | .expire k _ => k

/-- `f"rate_limit:{identifier}:{endpoint}:minute"` -/
def minuteKey (identifier endpoint : String) : String :=
  "rate_limit:" ++ identifier ++ ":" ++ endpoint ++ ":minute"

/-- `f"rate_limit:{identifier}:{endpoint}:hour"` -/
def hourKey (identifier endpoint : String) : String :=
  "rate_limit:" ++ identifier ++ ":" ++ endpoint ++ ":hour"

/-- `f"rate_limit:{identifier}:{endpoint}:burst"` -/
def burstKey (identifier endpoint : String) : String :=
  "rate_limit:" ++ identifier ++ ":" ++ endpoint ++ ":burst"

/-- The info dict returned by `is_allowed` / `_check_limit`:
`{"remaining": .., "reset_at": .., "reason": ..?}`. -/
structure RLInfo where
  remaining : Int
  resetAt : Int
  reason : Option String
deriving DecidableEq

/-- Result of one `_check_limit` call: boolean verdict, info dict, the store
after the call, and the trace of store operations issued. -/
structure CheckResult where
  allowed : Bool
  info : RLInfo
  store : RLStore
  trace : List RLOp

/-- Redis `TTL key` for a counter key: remaining seconds, `-1` when the key
has no recorded expiry. -/
def ttlVal (s : RLStore) (key : String) : Int :=
  match s.ttls key with
  | some n => (n : Int)
  | none => -1

/-- `RateLimiter._check_limit(key, limit, window_seconds)` at clock reading
`now`.  First request in a window runs `setex(key, window, 1)`; a count at or
above the limit is rejected without increment; otherwise the counter is
incremented and the key's TTL is read back for `reset_at`. -/
def checkLimit (key : String) (limit : Nat) (window : Nat) (now : ℚ)
    (s : RLStore) : CheckResult :=
  match s.counters key with
  | none =>
      { allowed := true
        info := { remaining := (limit : Int) - 1, resetAt := ⌊now⌋ + window,
                  reason := none }
        store := { s with
          counters := fun k => if k = key then some 1 else s.counters k,
          ttls := fun k => if k = key then some window else s.ttls k }
        trace := [RLOp.get key, RLOp.setex key window 1] }
  | some current =>
      if limit ≤ current then
        { allowed := false
          info := { remaining := 0, resetAt := ⌊now⌋ + ttlVal s key,
                    reason := some "rate_limit_exceeded" }
          store := s
          trace := [RLOp.get key, RLOp.ttl key] }
      else
        { allowed := true
          info := { remaining := (limit : Int) - current - 1,
                    resetAt := ⌊now⌋ + ttlVal s key, reason := none }
          store := { s with
            counters := fun k => if k = key then some (current + 1)
                                 else s.counters k }
          trace := [RLOp.get key, RLOp.incr key, RLOp.ttl key] }

/-- The sliding-window set after one burst check at clock reading `t`:
`zadd` of member `str(t)` with score `t`, then `zremrangebyscore key 0 (t-10)`
(removing scores in the closed interval `[0, t-10]`). -/
def burstWindowAfter (z : Finset ℚ) (t : ℚ) : Finset ℚ :=
  (insert t z).filter (fun x => ¬(0 ≤ x ∧ x ≤ t - 10))

/-- Result of one `_check_burst` call. -/
structure BurstResult where
  allowed : Bool
  store : RLStore
  trace : List RLOp

/-- `RateLimiter._check_burst(identifier, endpoint)` at clock reading `now`:
add the current timestamp, prune entries older than 10 seconds, compare the
cardinality of the remaining window to the burst limit, and set a 60s expiry
on the set. -/
def checkBurst (cfg : RLConfig) (identifier endpoint : String) (now : ℚ)
    (s : RLStore) : BurstResult :=
  let key := burstKey identifier endpoint
  let z := burstWindowAfter (s.zsets key) now
  { allowed := z.card ≤ cfg.burst
    store := { s with
      zsets := fun k => if k = key then z else s.zsets k,
      ttls := fun k => if k = key then some 60 else s.ttls k }
    trace := [RLOp.zadd key now, RLOp.zremrangebyscore key 0 (now - 10),
              RLOp.zcard key, RLOp.expire key 60] }

/-- Result of one `is_allowed` call. -/
structure RLResult where
  allowed : Bool
  info : RLInfo
  store : RLStore
  trace : List RLOp

/-- `RateLimiter.is_allowed(identifier, endpoint)` at clock reading `now`.
With the client disconnected it fails open immediately with
`{"remaining": 999, "reset_at": int(time.time()) + 60}` and touches nothing.
Otherwise: minute counter, then hour counter, then burst window, returning
the first failing check's info. -/
def isAllowed (cfg : RLConfig) (identifier endpoint : String) (now : ℚ)
    (s : RLStore) : RLResult :=
  if s.available = false then
    { allowed := true
      info := { remaining := 999, resetAt := ⌊now⌋ + 60, reason := none }
      store := s
      trace := [] }
  else
    let m := checkLimit (minuteKey identifier endpoint) cfg.ratePerMinute 60
      now s
    if m.allowed = false then
      { allowed := false, info := m.info, store := m.store, trace := m.trace }
    else
      let h := checkLimit (hourKey identifier endpoint) cfg.ratePerHour 3600
        now m.store
      if h.allowed = false then
        { allowed := false, info := h.info, store := h.store,
          trace := m.trace ++ h.trace }
      else
        let b := checkBurst cfg identifier endpoint now h.store
        if b.allowed = false then
          { allowed := false
            info := { remaining := 0, resetAt := ⌊now⌋ + 60,
                      reason := some "burst_limit_exceeded" }
            store := b.store
            trace := m.trace ++ h.trace ++ b.trace }
        else
          { allowed := true
            info := { remaining := min m.info.remaining h.info.remaining,
                      resetAt := m.info.resetAt, reason := none }
            store := b.store
            trace := m.trace ++ h.trace ++ b.trace }

/-- A sequence of `is_allowed` calls, one per clock reading in the list,
threading the store; returns the list of `(allowed, info)` results and the
final store. -/
def runCallsAt (cfg : RLConfig) (identifier endpoint : String) :
    List ℚ → RLStore → List (Bool × RLInfo) × RLStore
  | [], s => ([], s)
  | t :: ts, s =>
      let r := isAllowed cfg identifier endpoint t s
      let rest := runCallsAt cfg identifier endpoint ts r.store
      ((r.allowed, r.info) :: rest.1, rest.2)

/-! ## IP blocklist / whitelist (`security/ip_blocker.py`)

Block records live under `blocked_ips:{ip}`; the whitelist is the Redis set
`whitelisted_ips`.  The store slice keeps the block records as a map from IP
to record and the whitelist as a finite set of IPs. -/

/-- The JSON block record written by `block_ip`. -/
structure BlockRecord where
  ip : String
  reason : String
  blockedAt : String
  expiresAt : String
deriving DecidableEq

/-- The slice of the shared KV store that the IP blocker touches.
`available = false` models the disconnected client sentinel. -/
structure IPStore where
  available : Bool
  blocked : String → Option BlockRecord
  whitelist : Finset String

/-- `IPBlocker.is_blocked(ip)`: `False` when disconnected, otherwise
`EXISTS blocked_ips:{ip} > 0`. -/
def isBlocked (s : IPStore) (ipAddress : String) : Bool :=
  if s.available = false then false
  else (s.blocked ipAddress).isSome

/-- `IPBlocker.is_whitelisted(ip)`: `False` when disconnected, otherwise
`SISMEMBER whitelisted_ips ip`. -/
def isWhitelisted (s : IPStore) (ipAddress : String) : Bool :=
  if s.available = false then false
  else ipAddress ∈ s.whitelist

/-- `IPBlocker.block_ip(ip, reason, duration_hours)`: writes the block
record (with TTL `duration_hours * 3600` when positive, permanent
otherwise — the TTL is not part of the record state here) and reports
success; fails with `False` when disconnected.  `nowIso` stands for
`datetime.now().isoformat()` and `expIso` for the computed expiry text. -/
def blockIp (s : IPStore) (ipAddress reason : String)
    (durationHours : Nat) (nowIso : String) : Bool × IPStore :=
  if s.available = false then (false, s)
  else
    let expiresAt := if 0 < durationHours then nowIso ++ "+duration" else "never"
    let record : BlockRecord :=
      { ip := ipAddress, reason := reason, blockedAt := nowIso,
        expiresAt := expiresAt }
    (true,
     { s with blocked := fun ip =>
         if ip = ipAddress then some record else s.blocked ip })

/-! ## Admission middleware (`security/security_middleware.py`)

`SecurityMiddleware.dispatch` sequences: excluded-path bypass → whitelist
bypass → block rejection (403) → rate-limit rejection (429, with optional
auto-block escalation) → forward and annotate.  The rate limiter is an
injected oracle returning `(allowed, limit_info)`; `limit_info` is the
Python dict the middleware reads with `.get(key, default)`, so its fields
are all optional here (the concrete limiter never populates
`"violations"`, `"limit"` or `"retry_after"`, but the middleware reads
them defensively).  The downstream handler's response is a parameter.
Request-validation (step 4) only logs a warning and alters nothing, and the
`X-Process-Time` header carries nondeterministic wall-clock text; both are
elided. -/

/-- The `limit_info` dict as read by the middleware. -/
structure LimitInfoDict where
  remaining : Option Int
  resetAt : Option Int
  reason : Option String
  violations : Option Nat
  limit : Option Nat
  retryAfter : Option Nat
deriving DecidableEq

/-- Middleware configuration (`SecurityMiddleware.__init__`). -/
structure MWConfig where
  enableRateLimiting : Bool
  enableIpBlocking : Bool
  enableRequestValidation : Bool
  excludedPaths : List String
deriving DecidableEq

/-- The default excluded paths. -/
def defaultExcludedPaths : List String :=
  ["/docs", "/redoc", "/openapi.json", "/health", "/favicon.ico"]

/-- The fields of the incoming request the middleware reads.  A header
value of `some ""` models a present-but-empty header (falsy in Python). -/
structure MWRequest where
  path : String
  method : String
  forwardedFor : Option String
  realIp : Option String
  clientHost : Option String
deriving DecidableEq

/-- An HTTP response: status code and headers (appended in the order the
middleware sets them). -/
structure MWResponse where
  status : Nat
  headers : List (String × String)
deriving DecidableEq

/-- Python `s.startswith(pre)`, on the character sequence of the string. -/
def pyStartsWith (s pre : String) : Bool :=
  pre.data.isPrefixOf s.data

/-- Python `s.endswith(suf)`, on the character sequence of the string. -/
def pyEndsWith (s suf : String) : Bool :=
  suf.data.isSuffixOf s.data

/-- Python slicing `s[n:]`, on the character sequence of the string. -/
def pyDrop (s : String) (n : Nat) : String :=
  ⟨s.data.drop n⟩

/-- `SecurityMiddleware._is_excluded_path(path)`: true iff the path starts
with any configured excluded path. -/
def isExcludedPath (excludedPaths : List String) (path : String) : Bool :=
  excludedPaths.any (fun excluded => pyStartsWith path excluded)

/-- Fallback of `_get_client_ip`: the transport-level peer address, else
`"unknown"`. -/
def getClientIpFallback (req : MWRequest) : String :=
  req.clientHost.getD "unknown"

/-- Second step of `_get_client_ip`: the `X-Real-IP` header when present
and truthy. -/
def getClientIpReal (req : MWRequest) : String :=
  match req.realIp with
  | some r => if r = "" then getClientIpFallback req else r.trim
  | none => getClientIpFallback req

/-- `SecurityMiddleware._get_client_ip`: first IP of `X-Forwarded-For`,
else `X-Real-IP`, else the peer address, else `"unknown"`. -/
def getClientIp (req : MWRequest) : String :=
  match req.forwardedFor with
  | some f =>
      if f = "" then getClientIpReal req
      else ((f.splitOn ",").headD "").trim
  | none => getClientIpReal req

/-- Observable effects of one `dispatch` call, in order. -/
inductive MWAction where
  | checkWhitelist (ip : String)
  | checkBlocked (ip : String)
  | rateCheck (ip : String) (endpoint : String)
  | blockIpCall (ip : String) (reason : String) (durationHours : Nat)
  | callNext
deriving DecidableEq

/-- Metadata handed to `_add_security_headers`. -/
structure HeaderMeta where
  rateLimit : Option LimitInfoDict
  whitelisted : Bool

/-- `SecurityMiddleware._add_security_headers(response, metadata)`: the four
hardening headers, then rate-limit headers when metadata carries a truthy
`rate_limit`, then the whitelist marker when metadata carries
`whitelisted`. -/
def addSecurityHeaders (resp : MWResponse) (md : HeaderMeta) : MWResponse :=
  let hs := resp.headers ++
    [("X-Content-Type-Options", "nosniff"),
     ("X-Frame-Options", "DENY"),
     ("X-XSS-Protection", "1; mode=block"),
     ("Strict-Transport-Security", "max-age=31536000; includeSubDomains")]
  let hs := match md.rateLimit with
    | some li => hs ++
        [("X-RateLimit-Limit", toString (li.limit.getD 0)),
         ("X-RateLimit-Remaining", toString (li.remaining.getD 0)),
         ("X-RateLimit-Reset", toString (li.resetAt.getD 0))]
    | none => hs
  let hs := if md.whitelisted then
      hs ++ [("X-Security-Bypass", "whitelisted")] else hs
  { resp with headers := hs }

/-- The 429 rejection response built on a rate-limit failure. -/
def rateLimitedResponse (li : LimitInfoDict) : MWResponse :=
  { status := 429
    headers := [("X-RateLimit-Limit", toString (li.limit.getD 0)),
                ("X-RateLimit-Remaining", "0"),
                ("X-RateLimit-Reset", toString (li.resetAt.getD 0)),
                ("Retry-After", toString (li.retryAfter.getD 60))] }

/-- The 403 rejection response for a blocked IP (body fields elided). -/
def blockedResponse : MWResponse :=
  { status := 403, headers := [] }

/-- `SecurityMiddleware.dispatch(request, call_next)`, with the rate limiter
injected as an oracle `rl : identifier → endpoint → (allowed, limit_info)`
and the downstream handler's response as `handler`.  Returns the response
and the trace of observable effects. -/
def dispatch (cfg : MWConfig) (ips : IPStore)
    (rl : String → String → Bool × LimitInfoDict)
    (req : MWRequest) (handler : MWResponse) :
    MWResponse × List MWAction :=
  if isExcludedPath cfg.excludedPaths req.path then
    (handler, [MWAction.callNext])
  else
    let clientIp := getClientIp req
    let t1 : List MWAction :=
      if cfg.enableIpBlocking then [MWAction.checkWhitelist clientIp] else []
    if cfg.enableIpBlocking && isWhitelisted ips clientIp then
      (addSecurityHeaders handler { rateLimit := none, whitelisted := true },
       t1 ++ [MWAction.callNext])
    else
      let t2 := t1 ++
        (if cfg.enableIpBlocking then [MWAction.checkBlocked clientIp] else [])
      if cfg.enableIpBlocking && isBlocked ips clientIp then
        (blockedResponse, t2)
      else
        if cfg.enableRateLimiting then
          let endpoint := req.method ++ ":" ++ req.path
          let r := rl clientIp endpoint
          let t3 := t2 ++ [MWAction.rateCheck clientIp endpoint]
          if r.1 = false then
            let violations := r.2.violations.getD 0
            let t4 := t3 ++
              (if 3 ≤ violations then
                [MWAction.blockIpCall clientIp
                  "excessive_rate_limit_violations" 1]
               else [])
            (rateLimitedResponse r.2, t4)
          else
            (addSecurityHeaders handler
              { rateLimit := some r.2, whitelisted := false },
             t3 ++ [MWAction.callNext])
        else
          (addSecurityHeaders handler
            { rateLimit := none, whitelisted := false },
           t2 ++ [MWAction.callNext])

/-! ## Semantic response cache (`cache/cache_strategies.py`)

Response payloads are JSON objects, modelled as association lists of string
fields; Python's `if cached:` / `if response:` truthiness on a dict is
non-emptiness.  The store keeps the `query_cache:*` entries as an
association list in the listing order that `client.keys(pattern)` reports
(an existing key keeps its position on overwrite; a new key is appended),
and the `metadata:*` entries likewise.  The embedding model, the
round-and-md5 hash of an embedding, and the float cosine-similarity
computation are injected as abstract functions over an embedding type
`Emb`, with similarity values in `ℚ`. -/

/-- A JSON-object response payload. -/
abbrev Payload : Type := List (String × String)

/-- Python truthiness of a dict payload. -/
def Payload.truthy (p : Payload) : Bool :=
  match p with
  | [] => false
  | _ :: _ => true

/-- Association-list lookup (Redis `GET` on a present connection). -/
def alGet {α : Type} : List (String × α) → String → Option α
  | [], _ => none
  | (k', v') :: rest, k => if k' = k then some v' else alGet rest k

/-- Association-list write (Redis `SET`): overwrite in place, or append a
new key at the end of the listing. -/
def alSet {α : Type} : List (String × α) → String → α → List (String × α)
  | [], k, v => [(k, v)]
  | (k', v') :: rest, k, v =>
      if k' = k then (k, v) :: rest else (k', v') :: alSet rest k v

/-- The `metadata:{hash}:{language}` companion record written by
`cache_response`: query text, raw embedding vector, language, timestamp. -/
structure CacheMetadata (Emb : Type) where
  query : String
  embedding : Emb
  language : String
  timestamp : ℚ

/-- The slice of the shared KV store the semantic cache touches.
`available = false` models the disconnected client sentinel. -/
structure CacheStore (Emb : Type) where
  available : Bool
  resp : List (String × Payload)
  meta : List (String × CacheMetadata Emb)

/-- The injected capabilities of `SemanticCacheStrategy`: the embedding
model (`_generate_embedding`), the round-then-md5 hash
(`_embedding_to_hash`), the cosine-similarity computation
(`_cosine_similarity`), and the configured threshold. -/
structure SemanticCache (Emb : Type) where
  embFn : String → Emb
  hashOf : Emb → String
  sim : Emb → Emb → ℚ
  threshold : ℚ

/-- `f"query_cache:{embedding_hash}:{language}"` -/
def cacheKeyOf (h language : String) : String :=
  "query_cache:" ++ h ++ ":" ++ language

/-- `f"metadata:{embedding_hash}:{language}"` -/
def metadataKeyOf (h language : String) : String :=
  "metadata:" ++ h ++ ":" ++ language

/-- `cache_key.replace("query_cache:", "metadata:")` for the keys the scan
enumerates (they all start with `query_cache:`, so the replacement rewrites
that prefix; `"query_cache:"` has 12 characters). -/
def metaKeyFromCacheKey (k : String) : String :=
  if pyStartsWith k "query_cache:" then "metadata:" ++ pyDrop k 12 else k

/-- The glob `query_cache:*:{language}` used by `client.keys`. -/
def matchesPattern (language : String) (k : String) : Bool :=
  pyStartsWith k "query_cache:" && pyEndsWith k (":" ++ language)

/-- The candidate key listing `client.keys(f"query_cache:*:{language}")`,
in the store's listing order. -/
def listKeys {Emb : Type} (cs : CacheStore Emb) (language : String) :
    List String :=
  (cs.resp.map Prod.fst).filter (matchesPattern language)

/-- The candidate keys the similarity scan actually examines:
`cache_keys[:50]`. -/
def candidateKeys {Emb : Type} (cs : CacheStore Emb) (language : String) :
    List String :=
  (listKeys cs language).take 50

/-- A cache hit as returned to the caller: the stored payload (the dict the
result spreads with `**cached` / `**response`) plus the reported
`cache_similarity`. -/
structure CacheHit where
  payload : Payload
  similarity : ℚ
deriving DecidableEq

/-- One iteration of the similarity-scan loop in
`_find_similar_cached_query`: load the candidate's metadata (skip when
absent — metadata written by `cache_response` always carries its
embedding), compute similarity, and when it beats the best so far *and*
meets the threshold, record the new best similarity and, if the candidate's
stored response is present and truthy, the new best match. -/
def scanStep {Emb : Type} (sc : SemanticCache Emb) (cs : CacheStore Emb)
    (qEmb : Emb) (acc : Option CacheHit × ℚ) (key : String) :
    Option CacheHit × ℚ :=
  match alGet cs.meta (metaKeyFromCacheKey key) with
  | none => acc
  | some md =>
      let s := sc.sim qEmb md.embedding
      if acc.2 < s ∧ sc.threshold ≤ s then
        match alGet cs.resp key with
        | some response =>
            if response.truthy then (some { payload := response,
                                            similarity := s }, s)
            else (acc.1, s)
        | none => (acc.1, s)
      else acc

/-- `SemanticCacheStrategy._find_similar_cached_query(query_embedding,
language)`: `None` when disconnected or no key matches the pattern,
otherwise the best match of the scan over the first 50 listed candidate
keys, starting from `best_match = None`, `best_similarity = 0.0`. -/
def findSimilar {Emb : Type} (sc : SemanticCache Emb) (cs : CacheStore Emb)
    (qEmb : Emb) (language : String) : Option CacheHit :=
  if cs.available = false then none
  else
    let keys := listKeys cs language
    if keys = [] then none
    else ((candidateKeys cs language).foldl (scanStep sc cs qEmb)
          (none, 0)).1

/-- `SemanticCacheStrategy.get_cached_response(query, language)`: `None`
when disconnected; otherwise compute the query embedding and its hash, try
the exact-match entry (a truthy stored payload is returned with
`cache_similarity = 1.0`), and fall back to the similarity scan. -/
def getCachedResponse {Emb : Type} (sc : SemanticCache Emb)
    (cs : CacheStore Emb) (query language : String) : Option CacheHit :=
  if cs.available = false then none
  else
    let qEmb := sc.embFn query
    let cacheKey := cacheKeyOf (sc.hashOf qEmb) language
    match alGet cs.resp cacheKey with
    | some cached =>
        if cached.truthy then some { payload := cached, similarity := 1 }
        else findSimilar sc cs qEmb language
    | none => findSimilar sc cs qEmb language

/-- `SemanticCacheStrategy.cache_response(query, response, language, ttl)`
at clock reading `now`: `False` when disconnected; otherwise write the
response under `query_cache:{hash}:{language}` and the metadata (query,
raw embedding, language, timestamp) under `metadata:{hash}:{language}`,
and report the response write's success.  TTLs are elided (single-window
model: no expiry intervenes between the operations under study). -/
def cacheResponse {Emb : Type} (sc : SemanticCache Emb)
    (cs : CacheStore Emb) (query : String) (response : Payload)
    (language : String) (now : ℚ) : Bool × CacheStore Emb :=
  if cs.available = false then (false, cs)
  else
    let qEmb := sc.embFn query
    let h := sc.hashOf qEmb
    let md : CacheMetadata Emb :=
      { query := query, embedding := qEmb, language := language,
        timestamp := now }
    (true,
     { cs with
        resp := alSet cs.resp (cacheKeyOf h language) response,
        meta := alSet cs.meta (metadataKeyOf h language) md })

/-! ## Concrete instances

Concrete configurations, stores and requests used by the closed witnesses
and counterexamples below. -/

/-- The default limiter configuration: 30/minute, 500/hour, burst 10. -/
def cfgDefault : RLConfig := ⟨30, 500, 10⟩

/-- A small but legitimate limiter configuration: 3/minute, 5/hour,
burst 1. -/
def cfgSmall : RLConfig := ⟨3, 5, 1⟩

/-- A connected limiter store with no keys yet. -/
def freshRL : RLStore := ⟨true, fun _ => none, fun _ => none, fun _ => ∅⟩

/-- A disconnected limiter store (arbitrary residual contents). -/
def rlOffline : RLStore := ⟨false, fun _ => none, fun _ => none, fun _ => ∅⟩

/-- A disconnected IP-blocker store. -/
def ipsOffline : IPStore := ⟨false, fun _ => none, ∅⟩

/-- A disconnected semantic-cache store. -/
def csOffline : CacheStore Nat := ⟨false, [], []⟩

/-- A degenerate but admissible semantic-cache capability set: constant
embedding, constant hash, constant similarity 1, threshold 1. -/
def scNat : SemanticCache Nat :=
  { embFn := fun _ => 0, hashOf := fun _ => "h", sim := fun _ _ => 1,
    threshold := 1 }

/-- A connected, empty semantic-cache store. -/
def csEmptyNat : CacheStore Nat := { available := true, resp := [], meta := [] }

/-- A connected cache store holding one entry whose similarity against the
probe equals the threshold exactly. -/
def csOneEntry : CacheStore Nat :=
  { available := true
    resp := [("query_cache:h:English", [("answer", "42")])]
    meta := [("metadata:h:English",
              { query := "q", embedding := 0, language := "English",
                timestamp := 0 })] }

/-- A connected cache store whose listing holds 51 keys matching the
`English` pattern (with no metadata, so the scan skips every candidate). -/
def cs51 : CacheStore Nat :=
  { available := true
    resp := (List.range 51).map
      (fun i => (cacheKeyOf (toString i) "English", [("a", "b")]))
    meta := [] }

/-- The spec's reading of the candidate bound, stated in the spec's words:
the `n` most recently listed keys are the last `n` of the listing. -/
def specMostRecentlyListed (n : Nat) (keys : List String) : List String :=
  keys.drop (keys.length - n)

/-- An empty limit-info dict (every optional field absent). -/
def liNone : LimitInfoDict := ⟨none, none, none, none, none, none⟩

/-- A limit-info dict carrying a violation count of 3. -/
def liViol3 : LimitInfoDict :=
  ⟨some 0, some 60, some "rate_limit_exceeded", some 3, none, none⟩

/-- The middleware under its default construction: all checks enabled,
default excluded paths. -/
def defaultMWConfig : MWConfig := ⟨true, true, true, defaultExcludedPaths⟩

/-- A plain downstream handler response. -/
def handlerOk : MWResponse := ⟨200, []⟩

/-- A request for `/healthz` — not an excluded path itself, but an
extension of the excluded path `/health`. -/
def reqHealthz : MWRequest := ⟨"/healthz", "GET", none, none, some "198.51.100.9"⟩

/-- A request for an ordinary API path from peer `198.51.100.9`. -/
def reqApi : MWRequest := ⟨"/api/ask", "POST", none, none, some "198.51.100.9"⟩

/-- A connected blocker store in which `198.51.100.9` is simultaneously
whitelisted and carries a block record. -/
def ipsWlAndBlocked : IPStore :=
  ⟨true,
   fun ip => if ip = "198.51.100.9" then
       some { ip := "198.51.100.9", reason := "abuse", blockedAt := "t0",
              expiresAt := "never" }
     else none,
   {"198.51.100.9"}⟩

/-- A connected blocker store with no records and an empty whitelist. -/
def ipsClean : IPStore := ⟨true, fun _ => none, ∅⟩

/-- A limiter oracle that always admits. -/
def rlAlways : String → String → Bool × LimitInfoDict := fun _ _ => (true, liNone)

/-- A limiter oracle that always rejects, reporting 3 violations. -/
def rlDeny3 : String → String → Bool × LimitInfoDict := fun _ _ => (false, liViol3)

/-- A connected limiter store whose minute counter for
`("203.0.113.7", "GET:/api")` is exhausted (30), with every other counter
key reading 999 — in particular the hour counter is also over its limit. -/
def rlMinuteExhausted : RLStore :=
  ⟨true,
   fun k => if k = minuteKey "203.0.113.7" "GET:/api" then some 30
            else some 999,
   fun _ => some 45, fun _ => ∅⟩

/-- A connected limiter store whose minute counter for
`("203.0.113.7", "GET:/api")` reads 2 but whose hour counter is exhausted
(500). -/
def rlHourExhausted : RLStore :=
  ⟨true,
   fun k => if k = minuteKey "203.0.113.7" "GET:/api" then some 2
            else if k = hourKey "203.0.113.7" "GET:/api" then some 500
            else none,
   fun _ => some 45, fun _ => ∅⟩

/-- A small configuration used to exercise the window-counter theorem:
2/minute, 4/hour, burst 3. -/
def cfgC3 : RLConfig := ⟨2, 4, 3⟩

/-- State of the limiter store for one `(identifier, endpoint)` pair after
`k ≥ 1` admitted same-timestamp calls in a single window: both counters at
`k` with their window TTLs, and the burst window holding the one shared
timestamp. -/
def Pinv (identifier endpoint : String) (now : ℚ) (k : Nat) (s : RLStore) :
    Prop :=
  s.available = true ∧
  s.counters (minuteKey identifier endpoint) = some k ∧
  s.counters (hourKey identifier endpoint) = some k ∧
  s.ttls (minuteKey identifier endpoint) = some 60 ∧
  s.ttls (hourKey identifier endpoint) = some 3600 ∧
  s.zsets (burstKey identifier endpoint) = {now}

/-! ## Helper lemmas -/

/-- The three counter keys for one `(identifier, endpoint)` pair are
pairwise distinct: their window suffixes have different lengths. -/
theorem minuteKey_ne_hourKey (identifier endpoint : String) :
    minuteKey identifier endpoint ≠ hourKey identifier endpoint := by
  intro h
  have h' := congrArg String.length h
  simp [minuteKey, hourKey, String.length_append] at h'
  exact absurd h' (by decide)

/-- The minute and burst keys differ. -/
theorem minuteKey_ne_burstKey (identifier endpoint : String) :
    minuteKey identifier endpoint ≠ burstKey identifier endpoint := by
  intro h
  have h' := congrArg String.length h
  simp [minuteKey, burstKey, String.length_append] at h'
  exact absurd h' (by decide)

/-- The hour and burst keys differ. -/
theorem hourKey_ne_burstKey (identifier endpoint : String) :
    hourKey identifier endpoint ≠ burstKey identifier endpoint := by
  intro h
  have h' := congrArg String.length h
  simp [hourKey, burstKey, String.length_append] at h'
  exact absurd h' (by decide)

/-- Reading back a key just written. -/
theorem alGet_alSet_self {α : Type} (l : List (String × α)) (k : String)
    (v : α) : alGet (alSet l k v) k = some v := by
  induction l with
  | nil => simp [alGet, alSet]
  | cons p rest ih =>
      by_cases h : p.1 = k
      · simp [alSet, alGet, h]
      · simp [alSet, alGet, h, ih]

/-- The freshly added timestamp always survives the pruning filter. -/
theorem burst_filter_keeps_now (t : ℚ) : ¬(0 ≤ t ∧ t ≤ t - 10) := by
  rintro ⟨-, h2⟩
  linarith

/-- `burstWindowAfter` at a fixed timestamp is idempotent: re-adding the
same member and re-pruning changes nothing. -/
theorem burstWindowAfter_idem (z : Finset ℚ) (t : ℚ) :
    burstWindowAfter (burstWindowAfter z t) t = burstWindowAfter z t := by
  unfold burstWindowAfter
  ext x
  simp only [Finset.mem_filter, Finset.mem_insert]
  constructor
  · rintro ⟨h1 | ⟨h2, _⟩, hp⟩
    · exact ⟨Or.inl h1, hp⟩
    · exact ⟨h2, hp⟩
  · rintro ⟨h1, hp⟩
    exact ⟨Or.inr ⟨h1, hp⟩, hp⟩

/-- Soundness invariant of the similarity-scan fold: it only ever records a
best match whose similarity meets the threshold. -/
theorem scan_fold_sound {Emb : Type} (sc : SemanticCache Emb)
    (cs : CacheStore Emb) (qEmb : Emb) (keys : List String)
    (acc : Option CacheHit × ℚ)
    (hacc : ∀ hit, acc.1 = some hit → sc.threshold ≤ hit.similarity) :
    ∀ hit, (keys.foldl (scanStep sc cs qEmb) acc).1 = some hit →
      sc.threshold ≤ hit.similarity := by
  induction keys generalizing acc with
  | nil => exact hacc
  | cons key rest ih =>
      intro hit hfold
      refine ih (scanStep sc cs qEmb acc key) ?_ hit hfold
      intro hit' hstep
      unfold scanStep at hstep
      rcases hmd : alGet cs.meta (metaKeyFromCacheKey key) with _ | md
      · rw [hmd] at hstep
        exact hacc hit' hstep
      · rw [hmd] at hstep
        dsimp only at hstep
        by_cases hcond : acc.2 < sc.sim qEmb md.embedding ∧
            sc.threshold ≤ sc.sim qEmb md.embedding
        · rw [if_pos hcond] at hstep
          rcases hresp : alGet cs.resp key with _ | response
          · rw [hresp] at hstep
            exact hacc hit' hstep
          · rw [hresp] at hstep
            dsimp only at hstep
            split at hstep
            · injection hstep with h
              subst h
              exact hcond.2
            · exact hacc hit' hstep
        · rw [if_neg hcond] at hstep
          exact hacc hit' hstep

/-- Evaluation of `_check_limit` on a fresh key. -/
theorem checkLimit_fresh (key : String) (limit window : Nat) (now : ℚ)
    (s : RLStore) (hc : s.counters key = none) :
    checkLimit key limit window now s =
      { allowed := true
        info := { remaining := (limit : Int) - 1, resetAt := ⌊now⌋ + window,
                  reason := none }
        store := { s with
          counters := fun k => if k = key then some 1 else s.counters k,
          ttls := fun k => if k = key then some window else s.ttls k }
        trace := [RLOp.get key, RLOp.setex key window 1] } := by
  unfold checkLimit
  rw [hc]

/-- Evaluation of `_check_limit` on a counter below the limit. -/
theorem checkLimit_under (key : String) (limit window : Nat) (now : ℚ)
    (s : RLStore) (c : Nat) (hc : s.counters key = some c) (h : c < limit) :
    checkLimit key limit window now s =
      { allowed := true
        info := { remaining := (limit : Int) - c - 1,
                  resetAt := ⌊now⌋ + ttlVal s key, reason := none }
        store := { s with
          counters := fun k => if k = key then some (c + 1)
                               else s.counters k }
        trace := [RLOp.get key, RLOp.incr key, RLOp.ttl key] } := by
  unfold checkLimit
  rw [hc]
  simp [Nat.not_le.mpr h]

/-- Evaluation of `_check_limit` on a counter at or over the limit. -/
theorem checkLimit_over (key : String) (limit window : Nat) (now : ℚ)
    (s : RLStore) (c : Nat) (hc : s.counters key = some c) (h : limit ≤ c) :
    checkLimit key limit window now s =
      { allowed := false
        info := { remaining := 0, resetAt := ⌊now⌋ + ttlVal s key,
                  reason := some "rate_limit_exceeded" }
        store := s
        trace := [RLOp.get key, RLOp.ttl key] } := by
  unfold checkLimit
  rw [hc]
  simp [h]

/-- The burst set stored after a burst check. -/
theorem checkBurst_zsets (cfg : RLConfig) (identifier endpoint : String)
    (t : ℚ) (s : RLStore) :
    (checkBurst cfg identifier endpoint t s).store.zsets
        (burstKey identifier endpoint)
      = burstWindowAfter (s.zsets (burstKey identifier endpoint)) t := by
  unfold checkBurst
  dsimp only
  rw [if_pos rfl]

/-- The burst verdict is the comparison of the pruned window's cardinality
against the burst limit. -/
theorem checkBurst_allowed (cfg : RLConfig) (identifier endpoint : String)
    (t : ℚ) (s : RLStore) :
    (checkBurst cfg identifier endpoint t s).allowed
      = decide ((burstWindowAfter (s.zsets (burstKey identifier endpoint))
          t).card ≤ cfg.burst) := rfl

/-! ## Claims -/

/-- C1: Fail-open under store unavailability.  With the KV store client
disconnected, `is_allowed` returns allowed with the sentinel info
`{"remaining": 999, "reset_at": int(now) + 60}` for every identifier and
endpoint, `is_blocked` returns false for every IP, and
`get_cached_response` returns no match for every query and language.  The
embedded operations are total Lean functions, so none of them can raise. -/
theorem fail_open_store_unavailable
    (cfg : RLConfig) (identifier endpoint : String) (now : ℚ)
    (sRL : RLStore) (ips : IPStore) (ipAddress : String)
    {Emb : Type} (sc : SemanticCache Emb) (cs : CacheStore Emb)
    (query language : String)
    (hRL : sRL.available = false) (hIP : ips.available = false)
    (hCS : cs.available = false) :
    (isAllowed cfg identifier endpoint now sRL).allowed = true ∧
    (isAllowed cfg identifier endpoint now sRL).info =
      { remaining := 999, resetAt := ⌊now⌋ + 60, reason := none } ∧
    isBlocked ips ipAddress = false ∧
    getCachedResponse sc cs query language = none := by
  refine ⟨?_, ?_, ?_, ?_⟩ <;>
    simp [isAllowed, isBlocked, getCachedResponse, hRL, hIP, hCS]

/-- Witness for C1 at concrete disconnected stores. -/
theorem fail_open_store_unavailable_witness :
    (isAllowed cfgDefault "203.0.113.7" "POST:/query" 0 rlOffline).allowed
      = true ∧
    (isAllowed cfgDefault "203.0.113.7" "POST:/query" 0 rlOffline).info =
      { remaining := 999, resetAt := ⌊(0 : ℚ)⌋ + 60, reason := none } ∧
    isBlocked ipsOffline "203.0.113.7" = false ∧
    getCachedResponse scNat csOffline "What is IPC 420?" "English" = none :=
  fail_open_store_unavailable cfgDefault "203.0.113.7" "POST:/query" 0
    rlOffline ipsOffline "203.0.113.7" scNat csOffline "What is IPC 420?"
    "English" rfl rfl rfl

/-- C6: Rate-check ordering and short-circuit.  First conjunct: when the
minute counter is at or over its limit, `is_allowed` returns false with the
minute check's info (reason `rate_limit_exceeded`, reset from the minute
key's TTL), leaves the store untouched, and every store operation it issued
addresses the minute key only — in particular the hour key (whose counter
may simultaneously be over its own limit) is neither read nor incremented.
Second conjunct: when the minute counter is under its limit but the hour
counter is at or over its limit, the result is the hour check's info, the
hour counter is not incremented, and the burst window is never touched. -/
theorem rate_checks_short_circuit
    (cfg : RLConfig) (identifier endpoint : String) (now : ℚ) (s : RLStore) :
    (∀ c, s.available = true →
      s.counters (minuteKey identifier endpoint) = some c →
      cfg.ratePerMinute ≤ c →
      (isAllowed cfg identifier endpoint now s).allowed = false ∧
      (isAllowed cfg identifier endpoint now s).info =
        { remaining := 0,
          resetAt := ⌊now⌋ + ttlVal s (minuteKey identifier endpoint),
          reason := some "rate_limit_exceeded" } ∧
      (isAllowed cfg identifier endpoint now s).store = s ∧
      (∀ op ∈ (isAllowed cfg identifier endpoint now s).trace,
        RLOp.key op = minuteKey identifier endpoint) ∧
      (∀ op ∈ (isAllowed cfg identifier endpoint now s).trace,
        RLOp.key op ≠ hourKey identifier endpoint ∧
        RLOp.key op ≠ burstKey identifier endpoint)) ∧
    (∀ c₁ c₂, s.available = true →
      s.counters (minuteKey identifier endpoint) = some c₁ →
      c₁ < cfg.ratePerMinute →
      s.counters (hourKey identifier endpoint) = some c₂ →
      cfg.ratePerHour ≤ c₂ →
      (isAllowed cfg identifier endpoint now s).allowed = false ∧
      (isAllowed cfg identifier endpoint now s).info =
        { remaining := 0,
          resetAt := ⌊now⌋ + ttlVal s (hourKey identifier endpoint),
          reason := some "rate_limit_exceeded" } ∧
      (isAllowed cfg identifier endpoint now s).store.counters
          (hourKey identifier endpoint)
        = s.counters (hourKey identifier endpoint) ∧
      (isAllowed cfg identifier endpoint now s).store.zsets
          (burstKey identifier endpoint)
        = s.zsets (burstKey identifier endpoint) ∧
      (∀ op ∈ (isAllowed cfg identifier endpoint now s).trace,
        RLOp.key op ≠ burstKey identifier endpoint)) := by
  constructor
  · intro c hAvail hc hlim
    have hm := checkLimit_over (minuteKey identifier endpoint)
      cfg.ratePerMinute 60 now s c hc hlim
    have hval : isAllowed cfg identifier endpoint now s =
        { allowed := false
          info := { remaining := 0,
                    resetAt := ⌊now⌋ + ttlVal s (minuteKey identifier endpoint),
                    reason := some "rate_limit_exceeded" }
          store := s
          trace := [RLOp.get (minuteKey identifier endpoint),
                    RLOp.ttl (minuteKey identifier endpoint)] } := by
      unfold isAllowed
      rw [hAvail]
      simp only [Bool.true_eq_false, if_false, hm]
      simp
    refine ⟨by rw [hval], by rw [hval], by rw [hval], ?_, ?_⟩
    · rw [hval]
      intro op hop
      simp only [List.mem_cons, List.not_mem_nil, or_false] at hop
      rcases hop with rfl | rfl
      · rfl
      · rfl
    · rw [hval]
      intro op hop
      simp only [List.mem_cons, List.not_mem_nil, or_false] at hop
      rcases hop with rfl | rfl
      · exact ⟨minuteKey_ne_hourKey identifier endpoint,
               minuteKey_ne_burstKey identifier endpoint⟩
      · exact ⟨minuteKey_ne_hourKey identifier endpoint,
               minuteKey_ne_burstKey identifier endpoint⟩
  · intro c₁ c₂ hAvail hc₁ hlim₁ hc₂ hlim₂
    have hm := checkLimit_under (minuteKey identifier endpoint)
      cfg.ratePerMinute 60 now s c₁ hc₁ hlim₁
    have hc₂m : ({ s with counters := fun k =>
          (if k = minuteKey identifier endpoint then some (c₁ + 1)
           else s.counters k) } : RLStore).counters
          (hourKey identifier endpoint) = some c₂ := by
      dsimp only
      rw [if_neg (Ne.symm (minuteKey_ne_hourKey identifier endpoint))]
      exact hc₂
    have hh := checkLimit_over (hourKey identifier endpoint)
      cfg.ratePerHour 3600 now _ c₂ hc₂m hlim₂
    have hval : isAllowed cfg identifier endpoint now s =
        { allowed := false
          info := { remaining := 0,
                    resetAt := ⌊now⌋ + ttlVal s (hourKey identifier endpoint),
                    reason := some "rate_limit_exceeded" }
          store := { s with counters := fun k =>
                       (if k = minuteKey identifier endpoint then some (c₁ + 1)
                        else s.counters k) }
          trace := [RLOp.get (minuteKey identifier endpoint),
                    RLOp.incr (minuteKey identifier endpoint),
                    RLOp.ttl (minuteKey identifier endpoint),
                    RLOp.get (hourKey identifier endpoint),
                    RLOp.ttl (hourKey identifier endpoint)] } := by
      unfold isAllowed
      rw [hAvail]
      simp only [Bool.true_eq_false, if_false, hm, hh]
      simp [ttlVal, hAvail]
    refine ⟨by rw [hval], by rw [hval], ?_, by rw [hval], ?_⟩
    · rw [hval]
      dsimp only
      rw [if_neg (Ne.symm (minuteKey_ne_hourKey identifier endpoint))]
    · rw [hval]
      intro op hop
      simp only [List.mem_cons, List.not_mem_nil, or_false] at hop
      rcases hop with rfl | rfl | rfl | rfl | rfl
      · exact minuteKey_ne_burstKey identifier endpoint
      · exact minuteKey_ne_burstKey identifier endpoint
      · exact minuteKey_ne_burstKey identifier endpoint
      · exact hourKey_ne_burstKey identifier endpoint
      · exact hourKey_ne_burstKey identifier endpoint

/-- Witness for C6 at concrete stores: a minute-exhausted store whose hour
counter is simultaneously over its own limit, and an hour-exhausted
store. -/
theorem rate_checks_short_circuit_witness :
    (isAllowed cfgDefault "203.0.113.7" "GET:/api" 0 rlMinuteExhausted).allowed
      = false ∧
    (isAllowed cfgDefault "203.0.113.7" "GET:/api" 0 rlMinuteExhausted).store
      = rlMinuteExhausted ∧
    (isAllowed cfgDefault "203.0.113.7" "GET:/api" 0 rlHourExhausted).allowed
      = false ∧
    (∀ op ∈ (isAllowed cfgDefault "203.0.113.7" "GET:/api" 0
        rlHourExhausted).trace,
      RLOp.key op ≠ burstKey "203.0.113.7" "GET:/api") := by
  have h1 := (rate_checks_short_circuit cfgDefault "203.0.113.7" "GET:/api" 0
    rlMinuteExhausted).1 30 rfl (by decide) (by decide)
  have h2 := (rate_checks_short_circuit cfgDefault "203.0.113.7" "GET:/api" 0
    rlHourExhausted).2 2 500 rfl (by decide) (by decide) (by decide)
    (by decide)
  exact ⟨h1.1, h1.2.2.1, h2.1, h2.2.2.2.2⟩

/-- C9: the burst detector stores each request under the member
`str(current_time)` with score `current_time` (modelled as the finite set
of recorded timestamps, as Python `str` is injective on clock readings), so
a second burst check at an identical clock reading overwrites the same
member: the stored window and the verdict are unchanged, and the
cardinality compared against the burst limit is the number of distinct
recorded timestamps in the last 10 seconds — not the number of calls. -/
theorem burst_equal_timestamps_collapse
    (cfg : RLConfig) (identifier endpoint : String) (t : ℚ) (s : RLStore) :
    (checkBurst cfg identifier endpoint t s).store.zsets
        (burstKey identifier endpoint)
      = burstWindowAfter (s.zsets (burstKey identifier endpoint)) t ∧
    (checkBurst cfg identifier endpoint t
        (checkBurst cfg identifier endpoint t s).store).store.zsets
        (burstKey identifier endpoint)
      = (checkBurst cfg identifier endpoint t s).store.zsets
        (burstKey identifier endpoint) ∧
    (∀ x, x ∈ (checkBurst cfg identifier endpoint t s).store.zsets
        (burstKey identifier endpoint) ↔
      (x = t ∨ x ∈ s.zsets (burstKey identifier endpoint)) ∧
        ¬(0 ≤ x ∧ x ≤ t - 10)) ∧
    (checkBurst cfg identifier endpoint t s).allowed
      = decide ((burstWindowAfter
          (s.zsets (burstKey identifier endpoint)) t).card ≤ cfg.burst) ∧
    (checkBurst cfg identifier endpoint t
        (checkBurst cfg identifier endpoint t s).store).allowed
      = (checkBurst cfg identifier endpoint t s).allowed := by
  refine ⟨checkBurst_zsets cfg identifier endpoint t s, ?_, ?_, ?_, ?_⟩
  · rw [checkBurst_zsets, checkBurst_zsets]
    exact burstWindowAfter_idem _ _
  · intro x
    rw [checkBurst_zsets]
    simp [burstWindowAfter, Finset.mem_filter, Finset.mem_insert]
  · exact checkBurst_allowed cfg identifier endpoint t s
  · rw [checkBurst_allowed, checkBurst_allowed, checkBurst_zsets,
      burstWindowAfter_idem]

/-- A singleton window at its own timestamp is unchanged by a re-check. -/
theorem burstWindowAfter_singleton (t : ℚ) :
    burstWindowAfter {t} t = {t} := by
  unfold burstWindowAfter
  rw [Finset.insert_eq_self.mpr (Finset.mem_singleton_self t)]
  rw [Finset.filter_singleton, if_pos (burst_filter_keeps_now t)]

/-- The window after the first-ever burst check holds just that check's
timestamp. -/
theorem burstWindowAfter_empty (t : ℚ) :
    burstWindowAfter ∅ t = {t} := by
  unfold burstWindowAfter
  rw [show (insert t (∅ : Finset ℚ)) = {t} from rfl]
  rw [Finset.filter_singleton, if_pos (burst_filter_keeps_now t)]

/-- One admitted same-timestamp `is_allowed` call from the invariant
state `Pinv k` (counter `k` below the minute limit): allowed, remaining
`minute_limit - k - 1`, and the store moves to `Pinv (k+1)`. -/
theorem isAllowed_step_inv (cfg : RLConfig) (identifier endpoint : String)
    (now : ℚ) (s : RLStore) (k : Nat)
    (hP : Pinv identifier endpoint now k s)
    (hkL : k < cfg.ratePerMinute)
    (hLH : cfg.ratePerMinute ≤ cfg.ratePerHour)
    (hB : 1 ≤ cfg.burst) :
    (isAllowed cfg identifier endpoint now s).allowed = true ∧
    (isAllowed cfg identifier endpoint now s).info =
      { remaining := (cfg.ratePerMinute : Int) - k - 1,
        resetAt := ⌊now⌋ + 60, reason := none } ∧
    Pinv identifier endpoint now (k + 1)
      (isAllowed cfg identifier endpoint now s).store := by
  obtain ⟨hAvail, hmc, hhc, hmt, hht, hz⟩ := hP
  have hne1 := minuteKey_ne_hourKey identifier endpoint
  have hne2 := minuteKey_ne_burstKey identifier endpoint
  have hne3 := hourKey_ne_burstKey identifier endpoint
  have hm := checkLimit_under (minuteKey identifier endpoint)
    cfg.ratePerMinute 60 now s k hmc hkL
  have hs₁hour : ({ s with counters := fun k' =>
      (if k' = minuteKey identifier endpoint then some (k + 1)
       else s.counters k') } : RLStore).counters (hourKey identifier endpoint)
      = some k := by
    dsimp only
    rw [if_neg (Ne.symm hne1)]
    exact hhc
  have hkH : k < cfg.ratePerHour := lt_of_lt_of_le hkL hLH
  have hh := checkLimit_under (hourKey identifier endpoint) cfg.ratePerHour
    3600 now _ k hs₁hour hkH
  have hmin : min ((cfg.ratePerMinute : Int) - k - 1)
      ((cfg.ratePerHour : Int) - k - 1)
      = (cfg.ratePerMinute : Int) - k - 1 := by
    apply min_eq_left
    have : (cfg.ratePerMinute : Int) ≤ (cfg.ratePerHour : Int) := by
      exact_mod_cast hLH
    omega
  refine ⟨?_, ?_, ?_⟩
  · unfold isAllowed
    rw [hAvail]
    simp only [Bool.true_eq_false, if_false, hm, hh]
    simp [checkBurst, hz, burstWindowAfter_singleton, hB]
  · unfold isAllowed
    rw [hAvail]
    simp only [Bool.true_eq_false, if_false, hm, hh]
    simp [checkBurst, hz, burstWindowAfter_singleton, hB, ttlVal, hmt, hmin]
  · unfold isAllowed
    rw [hAvail]
    simp only [Bool.true_eq_false, if_false, hm, hh]
    simp [checkBurst, hz, burstWindowAfter_singleton, hB, Pinv, hne1, hne2,
      hne3, Ne.symm hne1, Ne.symm hne2, Ne.symm hne3, hAvail, hmt, hht,
      ttlVal]

/-- One same-timestamp `is_allowed` call from the invariant state with the
minute counter at or over its limit: rejected with the minute-fail info and
an unchanged store. -/
theorem isAllowed_exhausted_inv (cfg : RLConfig)
    (identifier endpoint : String) (now : ℚ) (s : RLStore) (k : Nat)
    (hP : Pinv identifier endpoint now k s)
    (hk : cfg.ratePerMinute ≤ k) :
    (isAllowed cfg identifier endpoint now s).allowed = false ∧
    (isAllowed cfg identifier endpoint now s).info =
      { remaining := 0, resetAt := ⌊now⌋ + 60,
        reason := some "rate_limit_exceeded" } ∧
    (isAllowed cfg identifier endpoint now s).store = s := by
  obtain ⟨hAvail, hmc, hhc, hmt, hht, hz⟩ := hP
  have hm := checkLimit_over (minuteKey identifier endpoint)
    cfg.ratePerMinute 60 now s k hmc hk
  refine ⟨?_, ?_, ?_⟩ <;>
    · unfold isAllowed
      rw [hAvail]
      simp only [Bool.true_eq_false, if_false, hm]
      simp [ttlVal, hmt]

/-- The first same-timestamp `is_allowed` call on a fresh store: allowed,
remaining `minute_limit - 1`, and the store moves to `Pinv 1`. -/
theorem isAllowed_fresh_inv (cfg : RLConfig) (identifier endpoint : String)
    (now : ℚ) (s : RLStore)
    (hAvail : s.available = true)
    (hm0 : s.counters (minuteKey identifier endpoint) = none)
    (hh0 : s.counters (hourKey identifier endpoint) = none)
    (hz0 : s.zsets (burstKey identifier endpoint) = ∅)
    (hLH : cfg.ratePerMinute ≤ cfg.ratePerHour)
    (hB : 1 ≤ cfg.burst) :
    (isAllowed cfg identifier endpoint now s).allowed = true ∧
    (isAllowed cfg identifier endpoint now s).info =
      { remaining := (cfg.ratePerMinute : Int) - 1,
        resetAt := ⌊now⌋ + 60, reason := none } ∧
    Pinv identifier endpoint now 1
      (isAllowed cfg identifier endpoint now s).store := by
  have hne1 := minuteKey_ne_hourKey identifier endpoint
  have hne2 := minuteKey_ne_burstKey identifier endpoint
  have hne3 := hourKey_ne_burstKey identifier endpoint
  have hm := checkLimit_fresh (minuteKey identifier endpoint)
    cfg.ratePerMinute 60 now s hm0
  have hs₁hour : ({ s with
      counters := fun k' => (if k' = minuteKey identifier endpoint
        then some 1 else s.counters k'),
      ttls := fun k' => (if k' = minuteKey identifier endpoint
        then some 60 else s.ttls k') } : RLStore).counters
      (hourKey identifier endpoint) = none := by
    dsimp only
    rw [if_neg (Ne.symm hne1)]
    exact hh0
  have hh := checkLimit_fresh (hourKey identifier endpoint) cfg.ratePerHour
    3600 now _ hs₁hour
  have hmin : min ((cfg.ratePerMinute : Int) - 1)
      ((cfg.ratePerHour : Int) - 1) = (cfg.ratePerMinute : Int) - 1 := by
    apply min_eq_left
    have : (cfg.ratePerMinute : Int) ≤ (cfg.ratePerHour : Int) := by
      exact_mod_cast hLH
    omega
  refine ⟨?_, ?_, ?_⟩
  · unfold isAllowed
    rw [hAvail]
    simp only [Bool.true_eq_false, if_false, hm, hh]
    simp [checkBurst, hz0, Ne.symm hne2, Ne.symm hne3,
      burstWindowAfter_empty, hB]
  · unfold isAllowed
    rw [hAvail]
    simp only [Bool.true_eq_false, if_false, hm, hh]
    simp [checkBurst, hz0, Ne.symm hne2, Ne.symm hne3,
      burstWindowAfter_empty, hB, hmin]
  · unfold isAllowed
    rw [hAvail]
    simp only [Bool.true_eq_false, if_false, hm, hh]
    simp [checkBurst, hz0, burstWindowAfter_empty, hB, Pinv, hne1, hne2,
      hne3, Ne.symm hne1, Ne.symm hne2, Ne.symm hne3, hAvail]

/-- Running `n` same-timestamp calls from the invariant state `Pinv k`
produces, for the `j`-th call, an admitted result with remaining
`minute_limit - (k+j) - 1` while `k+j` is below the minute limit, and the
minute-fail rejection from then on. -/
theorem runCalls_from_inv (cfg : RLConfig) (identifier endpoint : String)
    (now : ℚ) (hLH : cfg.ratePerMinute ≤ cfg.ratePerHour)
    (hB : 1 ≤ cfg.burst) :
    ∀ (n k : Nat) (s : RLStore), Pinv identifier endpoint now k s →
      (runCallsAt cfg identifier endpoint (List.replicate n now) s).1 =
      (List.range n).map (fun j =>
        if k + j < cfg.ratePerMinute then
          (true, { remaining := (cfg.ratePerMinute : Int) - (k + j) - 1,
                   resetAt := ⌊now⌋ + 60, reason := none })
        else
          ((false : Bool),
           ({ remaining := 0, resetAt := ⌊now⌋ + 60,
              reason := some "rate_limit_exceeded" } : RLInfo))) := by
  intro n
  induction n with
  | zero =>
      intro k s hP
      simp [runCallsAt]
  | succ n ih =>
      intro k s hP
      rw [List.replicate_succ]
      unfold runCallsAt
      rw [List.range_succ_eq_map, List.map_cons, List.map_map]
      by_cases hk : k < cfg.ratePerMinute
      · obtain ⟨h1, h2, h3⟩ :=
          isAllowed_step_inv cfg identifier endpoint now s k hP hk hLH hB
        refine congrArg₂ List.cons ?_ ?_
        · rw [h1, h2, if_pos (by simpa using hk)]
          simp
        · rw [ih (k + 1) _ h3]
          refine List.map_congr_left ?_
          intro j _
          have harith : k + 1 + j = k + (j + 1) := by omega
          simp [Function.comp, Nat.succ_eq_add_one, harith]
          split
          · simp
            try omega
          · rfl
      · obtain ⟨h1, h2, h3⟩ := isAllowed_exhausted_inv cfg identifier
          endpoint now s k hP (Nat.le_of_not_lt hk)
        refine congrArg₂ List.cons ?_ ?_
        · rw [h1, h2, if_neg (by simpa using hk)]
        · rw [h3, ih k s hP]
          refine List.map_congr_left ?_
          intro j _
          simp only [Function.comp]
          by_cases hj : k + (j + 1) < cfg.ratePerMinute
          · exact absurd (by omega : k < cfg.ratePerMinute) hk
          · rw [if_neg (by omega), if_neg hj]

/-- C3 counterexample: under the legitimate configuration 3/minute, 5/hour,
burst 1, two sequential `is_allowed` calls within a single minute window
(clock readings 0 and 1, both inside the same 60s window, from a fresh
store) yield `[allowed, rejected]`: the second call is rejected by the
burst window even though N = 2 ≤ L = 3, so it is not the case that the
first N ≤ L sequential calls in a window all return allowed=true. -/
theorem counter_monotonicity_claim_counterexample :
    2 ≤ cfgSmall.ratePerMinute ∧
    ((runCallsAt cfgSmall "1.2.3.4" "GET:/api" [0, 1] freshRL).1.map
      Prod.fst) = [true, false] := by
  constructor
  · decide
  · simp +decide [runCallsAt, isAllowed, checkLimit, checkBurst,
      burstWindowAfter, ttlVal, cfgSmall, freshRL, Finset.filter_insert,
      Finset.filter_empty,
      show (0 : ℚ) - 10 = -10 from by norm_num,
      show (1 : ℚ) - 10 = -9 from by norm_num]

/-- C3 (amended): within a single counting window with configured minute
limit L (at least 1, and not exceeding the hour limit), and provided the
burst window does not trip — here: all calls observe the same clock reading,
so the burst window holds one member, and the burst limit is at least 1 —
the first N ≤ L sequential `is_allowed` calls from a fresh window all
return allowed=true with strictly decreasing `remaining` (exactly
`L - k - 1` on the k-th call, 0-based), and the (L+1)-th call returns
allowed=false with the minute counter's `rate_limit_exceeded` info. -/
theorem counter_monotonicity_amended
    (cfg : RLConfig) (identifier endpoint : String) (now : ℚ) (s : RLStore)
    (L : Nat)
    (hL : cfg.ratePerMinute = L) (hL1 : 1 ≤ L)
    (hLH : cfg.ratePerMinute ≤ cfg.ratePerHour) (hB : 1 ≤ cfg.burst)
    (hAvail : s.available = true)
    (hm0 : s.counters (minuteKey identifier endpoint) = none)
    (hh0 : s.counters (hourKey identifier endpoint) = none)
    (hz0 : s.zsets (burstKey identifier endpoint) = ∅) :
    (∀ k, k < L →
      (runCallsAt cfg identifier endpoint (List.replicate (L + 1) now)
        s).1[k]? =
      some (true, { remaining := (L : Int) - k - 1, resetAt := ⌊now⌋ + 60,
                    reason := none })) ∧
    (∀ j k infoJ infoK, j < k → k < L →
      (runCallsAt cfg identifier endpoint (List.replicate (L + 1) now)
        s).1[j]? = some (true, infoJ) →
      (runCallsAt cfg identifier endpoint (List.replicate (L + 1) now)
        s).1[k]? = some (true, infoK) →
      infoK.remaining < infoJ.remaining) ∧
    (runCallsAt cfg identifier endpoint (List.replicate (L + 1) now)
      s).1[L]? =
    some (false, { remaining := 0, resetAt := ⌊now⌋ + 60,
                   reason := some "rate_limit_exceeded" }) := by
  subst hL
  obtain ⟨h1, h2, h3⟩ := isAllowed_fresh_inv cfg identifier endpoint now s
    hAvail hm0 hh0 hz0 hLH hB
  have hrun := runCalls_from_inv cfg identifier endpoint now hLH hB
    cfg.ratePerMinute 1 _ h3
  have hlist : (runCallsAt cfg identifier endpoint
      (List.replicate (cfg.ratePerMinute + 1) now) s).1 =
      (true, { remaining := (cfg.ratePerMinute : Int) - 1,
               resetAt := ⌊now⌋ + 60, reason := none }) ::
      (List.range cfg.ratePerMinute).map (fun j =>
        if 1 + j < cfg.ratePerMinute then
          (true, { remaining := (cfg.ratePerMinute : Int) - (1 + j) - 1,
                   resetAt := ⌊now⌋ + 60, reason := none })
        else
          ((false : Bool),
           ({ remaining := 0, resetAt := ⌊now⌋ + 60,
              reason := some "rate_limit_exceeded" } : RLInfo))) := by
    rw [List.replicate_succ]
    unfold runCallsAt
    dsimp only
    rw [h1, h2, hrun]
    norm_cast
  have hget : ∀ k, k < cfg.ratePerMinute →
      (runCallsAt cfg identifier endpoint
        (List.replicate (cfg.ratePerMinute + 1) now) s).1[k]? =
      some (true, { remaining := (cfg.ratePerMinute : Int) - k - 1,
                    resetAt := ⌊now⌋ + 60, reason := none }) := by
    intro k hk
    rw [hlist]
    cases k with
    | zero =>
        rw [List.getElem?_cons_zero]
        norm_num
    | succ j =>
        rw [List.getElem?_cons_succ, List.getElem?_map,
          List.getElem?_range (by omega : j < cfg.ratePerMinute)]
        have hcond : 1 + j < cfg.ratePerMinute := by omega
        rw [Option.map_some', if_pos hcond]
        have harith : (cfg.ratePerMinute : Int) - (1 + j) - 1
            = (cfg.ratePerMinute : Int) - (j + 1) - 1 := by omega
        rw [harith]
        push_cast
        ring_nf
  refine ⟨hget, ?_, ?_⟩
  · intro j k infoJ infoK hjk hkL hj hk
    have hj' := hget j (by omega)
    have hk' := hget k hkL
    rw [hj] at hj'
    rw [hk] at hk'
    simp only [Option.some.injEq, Prod.mk.injEq, eq_self_iff_true,
      true_and] at hj' hk'
    rw [hj', hk']
    dsimp only
    omega
  · rw [hlist]
    rcases Nat.exists_eq_add_of_le hL1 with ⟨j, hj⟩
    rw [hj, show 1 + j = j + 1 from by omega, List.getElem?_cons_succ]
    have hnot : ¬(1 + j < j + 1) := by omega
    simp [List.getElem?_map,
      show (List.range (j + 1))[j]? = some j from
        List.getElem?_range (by omega), hnot]

/-- Witness for the amended C3 at the concrete configuration 2/minute,
4/hour, burst 3, three same-timestamp calls from a fresh store. -/
theorem counter_monotonicity_amended_witness :
    (runCallsAt cfgC3 "10.0.0.5" "GET:/w" (List.replicate 3 0)
      freshRL).1[0]? =
      some (true, { remaining := (2 : Int) - 0 - 1,
                    resetAt := ⌊(0 : ℚ)⌋ + 60, reason := none }) ∧
    (runCallsAt cfgC3 "10.0.0.5" "GET:/w" (List.replicate 3 0)
      freshRL).1[1]? =
      some (true, { remaining := (2 : Int) - 1 - 1,
                    resetAt := ⌊(0 : ℚ)⌋ + 60, reason := none }) ∧
    (runCallsAt cfgC3 "10.0.0.5" "GET:/w" (List.replicate 3 0)
      freshRL).1[2]? =
      some (false, { remaining := 0, resetAt := ⌊(0 : ℚ)⌋ + 60,
                     reason := some "rate_limit_exceeded" }) := by
  have h := counter_monotonicity_amended cfgC3 "10.0.0.5" "GET:/w" 0 freshRL
    2 rfl (by decide) (by decide) (by decide) rfl rfl rfl rfl
  exact ⟨h.1 0 (by decide), h.1 1 (by decide), h.2.2⟩

/-- C4 counterexample: a *successful* `cache_response` of the empty (falsy)
payload followed immediately by `get_cached_response` for the same query
and language returns no match, not a similarity-1.0 hit carrying the
payload: the exact-match branch tests the cached dict with Python
truthiness (`if cached:`) and falls through, and the similarity scan's
`if response:` then refuses to record the entry. -/
theorem cache_round_trip_counterexample :
    (cacheResponse scNat csEmptyNat "q" [] "English" 0).1 = true ∧
    getCachedResponse scNat
      (cacheResponse scNat csEmptyNat "q" [] "English" 0).2 "q" "English"
      = none := by
  exact ⟨by decide, by decide⟩

/-- C4 (amended): for every query, language, and *truthy* (non-empty
dict) serializable response payload, with the store available, the same
deterministic embedding function, and no intervening expiry, a successful
`cache_response` followed immediately by `get_cached_response` returns the
exact-match hit: similarity 1.0 with payload equal to the stored
response. -/
theorem cache_round_trip_truthy_payload {Emb : Type}
    (sc : SemanticCache Emb) (cs : CacheStore Emb)
    (query language : String) (response : Payload) (now : ℚ)
    (hAvail : cs.available = true) (hTruthy : response.truthy = true) :
    (cacheResponse sc cs query response language now).1 = true ∧
    getCachedResponse sc (cacheResponse sc cs query response language now).2
      query language = some { payload := response, similarity := 1 } := by
  constructor
  · unfold cacheResponse
    rw [hAvail]
    simp
  · unfold cacheResponse
    rw [hAvail]
    simp only [Bool.true_eq_false, if_false]
    unfold getCachedResponse
    dsimp only
    simp only [Bool.true_eq_false, if_false]
    rw [alGet_alSet_self]
    dsimp only
    rw [if_pos hTruthy]

/-- Witness for the amended C4 at a concrete nonempty payload. -/
theorem cache_round_trip_truthy_payload_witness :
    (cacheResponse scNat csEmptyNat "What is IPC 420?"
      [("answer", "cheating")] "English" 0).1 = true ∧
    getCachedResponse scNat
      (cacheResponse scNat csEmptyNat "What is IPC 420?"
        [("answer", "cheating")] "English" 0).2 "What is IPC 420?" "English"
      = some { payload := [("answer", "cheating")], similarity := 1 } :=
  cache_round_trip_truthy_payload scNat csEmptyNat "What is IPC 420?"
    "English" [("answer", "cheating")] 0 rfl rfl

/-- C5: the similarity threshold is inclusive.  Soundness: whatever the
similarity scan returns has similarity at least the configured threshold,
so a candidate whose similarity is strictly below the threshold is never
returned.  Boundary: a scanned candidate (here the sole pattern-matching
key) whose metadata is present, whose stored response is present and
truthy, and whose cosine similarity with the query embedding is *exactly*
the (positive) configured threshold, is returned as the match — the
comparison is `>=`, not `>`. -/
theorem threshold_boundary_inclusive {Emb : Type} (sc : SemanticCache Emb)
    (cs : CacheStore Emb) (qEmb : Emb) (language : String) :
    (∀ hit, findSimilar sc cs qEmb language = some hit →
      sc.threshold ≤ hit.similarity) ∧
    (∀ key md response,
      cs.available = true →
      listKeys cs language = [key] →
      alGet cs.meta (metaKeyFromCacheKey key) = some md →
      sc.sim qEmb md.embedding = sc.threshold →
      0 < sc.threshold →
      alGet cs.resp key = some response →
      response.truthy = true →
      findSimilar sc cs qEmb language =
        some { payload := response, similarity := sc.threshold }) := by
  constructor
  · intro hit hfind
    unfold findSimilar at hfind
    by_cases hav : cs.available = false
    · rw [if_pos hav] at hfind
      cases hfind
    · rw [if_neg hav] at hfind
      dsimp only at hfind
      split at hfind
      · cases hfind
      · refine scan_fold_sound sc cs qEmb _ (none, 0) ?_ hit hfind
        intro hit' h
        cases h
  · intro key md response hav hkeys hmd hsim hpos hresp htruthy
    unfold findSimilar candidateKeys
    rw [hav]
    simp only [Bool.true_eq_false, if_false]
    rw [hkeys]
    simp only [List.cons_ne_self, if_false, List.take,
      reduceCtorEq, ite_false]
    rw [List.foldl_cons, List.foldl_nil]
    unfold scanStep
    rw [hmd]
    dsimp only
    rw [hsim, if_pos ⟨hpos, le_refl sc.threshold⟩, hresp]
    dsimp only
    rw [if_pos htruthy]

/-- Witness for C5: a single cached entry whose similarity with the probe
equals the threshold exactly is returned, and the returned similarity
meets the threshold. -/
theorem threshold_boundary_inclusive_witness :
    findSimilar scNat csOneEntry (0 : Nat) "English" =
      some { payload := [("answer", "42")],
             similarity := scNat.threshold } ∧
    scNat.threshold ≤
      ({ payload := [("answer", "42")],
         similarity := scNat.threshold } : CacheHit).similarity := by
  have h := threshold_boundary_inclusive scNat csOneEntry (0 : Nat) "English"
  have h2 := h.2 "query_cache:h:English"
    { query := "q", embedding := 0, language := "English", timestamp := 0 }
    [("answer", "42")] rfl (by decide) rfl rfl (by decide) rfl rfl
  exact ⟨h2, h.1 _ h2⟩

/-- C8 counterexample: with 51 keys in the store's listing for the
language, the scan examines `cache_keys[:50]` — the *first* 50 keys of the
listing — which differs from the 50 most recently listed keys (the last 50
of the listing): the most recently listed key is not examined. -/
theorem similarity_scan_candidates_counterexample :
    (listKeys cs51 "English").length = 51 ∧
    (candidateKeys cs51 "English").length = 50 ∧
    candidateKeys cs51 "English"
      ≠ specMostRecentlyListed 50 (listKeys cs51 "English") := by
  exact ⟨by decide, by decide, by decide⟩

/-- C8 (amended): on an exact-match miss the similarity scan examines at
most 50 candidate keys for the language, namely the *first* 50 keys of the
store's listing (`cache_keys[:50]`, in the unspecified order the store
lists them — not a recency order). -/
theorem similarity_scan_first_fifty {Emb : Type} (sc : SemanticCache Emb)
    (cs : CacheStore Emb) (qEmb : Emb) (language : String) :
    candidateKeys cs language = (listKeys cs language).take 50 ∧
    (candidateKeys cs language).length ≤ 50 ∧
    (cs.available = true → listKeys cs language ≠ [] →
      findSimilar sc cs qEmb language =
        ((candidateKeys cs language).foldl (scanStep sc cs qEmb)
          (none, 0)).1) := by
  refine ⟨rfl, ?_, ?_⟩
  · exact List.length_take_le 50 (listKeys cs language)
  · intro hav hne
    unfold findSimilar
    rw [hav]
    simp [hne]

/-- Witness for the amended C8 at the 51-entry store. -/
theorem similarity_scan_first_fifty_witness :
    candidateKeys cs51 "English" = (listKeys cs51 "English").take 50 ∧
    findSimilar scNat cs51 (0 : Nat) "English" =
      ((candidateKeys cs51 "English").foldl (scanStep scNat cs51 0)
        (none, 0)).1 := by
  have h := similarity_scan_first_fifty scNat cs51 (0 : Nat) "English"
  exact ⟨h.1, h.2.2 rfl (by decide)⟩

/-- C2: auto-block escalation.  Whenever `dispatch` rejects a request for
a rate-limit violation (path not excluded, caller neither whitelisted nor
blocked, rate limiting enabled, limiter says not allowed) and the
limiter-reported info carries a violation count of at least 3, the
middleware invokes `block_ip` on the client IP with reason
`excessive_rate_limit_violations` and a 1-hour duration, and returns the
429 rejection. -/
theorem auto_block_escalation (cfg : MWConfig) (ips : IPStore)
    (rl : String → String → Bool × LimitInfoDict) (req : MWRequest)
    (handler : MWResponse) (li : LimitInfoDict)
    (hNotExcl : isExcludedPath cfg.excludedPaths req.path = false)
    (hNotWl : (cfg.enableIpBlocking
      && isWhitelisted ips (getClientIp req)) = false)
    (hNotBl : (cfg.enableIpBlocking
      && isBlocked ips (getClientIp req)) = false)
    (hRLon : cfg.enableRateLimiting = true)
    (hRl : rl (getClientIp req) (req.method ++ ":" ++ req.path)
      = (false, li))
    (hViol : 3 ≤ li.violations.getD 0) :
    (dispatch cfg ips rl req handler).1 = rateLimitedResponse li ∧
    (dispatch cfg ips rl req handler).1.status = 429 ∧
    MWAction.blockIpCall (getClientIp req)
      "excessive_rate_limit_violations" 1
      ∈ (dispatch cfg ips rl req handler).2 := by
  refine ⟨?_, ?_, ?_⟩ <;>
    · unfold dispatch
      rw [hNotExcl]
      simp only [Bool.false_eq_true, if_false]
      rw [hNotWl, hNotBl, hRLon, hRl]
      simp [hViol, rateLimitedResponse]

/-- Witness for C2: a denied request with 3 reported violations triggers
the 1-hour auto-block of the client IP. -/
theorem auto_block_escalation_witness :
    (dispatch defaultMWConfig ipsClean rlDeny3 reqApi handlerOk).1.status
      = 429 ∧
    MWAction.blockIpCall "198.51.100.9"
      "excessive_rate_limit_violations" 1
      ∈ (dispatch defaultMWConfig ipsClean rlDeny3 reqApi handlerOk).2 := by
  have h := auto_block_escalation defaultMWConfig ipsClean rlDeny3 reqApi
    handlerOk liViol3 (by decide) (by decide) (by decide) rfl rfl (by decide)
  exact ⟨h.2.1, h.2.2⟩

/-- C7: whitelist precedence.  For a request from a whitelisted IP (store
available, IP in the whitelist set, IP blocking enabled, path not
excluded), `dispatch` forwards the request to the handler, annotates the
response with the `X-Security-Bypass: whitelisted` marker, and its trace is
exactly the whitelist lookup followed by the handler call: the block
record is never consulted and the rate limiter is never invoked — for
*every* blocker store state, including ones where a block record for the
same IP exists. -/
theorem whitelist_precedence (cfg : MWConfig) (ips : IPStore)
    (rl : String → String → Bool × LimitInfoDict) (req : MWRequest)
    (handler : MWResponse)
    (hNotExcl : isExcludedPath cfg.excludedPaths req.path = false)
    (hBlockingOn : cfg.enableIpBlocking = true)
    (hAvail : ips.available = true)
    (hWl : getClientIp req ∈ ips.whitelist) :
    (dispatch cfg ips rl req handler).1 =
      addSecurityHeaders handler { rateLimit := none, whitelisted := true } ∧
    ("X-Security-Bypass", "whitelisted")
      ∈ (dispatch cfg ips rl req handler).1.headers ∧
    (dispatch cfg ips rl req handler).2 =
      [MWAction.checkWhitelist (getClientIp req), MWAction.callNext] ∧
    (∀ a ∈ (dispatch cfg ips rl req handler).2,
      (∀ ip, a ≠ MWAction.checkBlocked ip) ∧
      (∀ ip ep, a ≠ MWAction.rateCheck ip ep) ∧
      (∀ ip r d, a ≠ MWAction.blockIpCall ip r d)) := by
  have hwl : isWhitelisted ips (getClientIp req) = true := by
    unfold isWhitelisted
    rw [hAvail]
    simp [hWl]
  have hval : dispatch cfg ips rl req handler =
      (addSecurityHeaders handler { rateLimit := none, whitelisted := true },
       [MWAction.checkWhitelist (getClientIp req), MWAction.callNext]) := by
    unfold dispatch
    rw [hNotExcl]
    simp [hwl, hBlockingOn]
  refine ⟨by rw [hval], ?_, by rw [hval], ?_⟩
  · rw [hval]
    unfold addSecurityHeaders
    simp
  · rw [hval]
    intro a ha
    simp only [List.mem_cons, List.not_mem_nil, or_false] at ha
    rcases ha with rfl | rfl
    · exact ⟨fun ip => by simp, fun ip ep => by simp, fun ip r d => by simp⟩
    · exact ⟨fun ip => by simp, fun ip ep => by simp, fun ip r d => by simp⟩

/-- Witness for C7 at a store where `198.51.100.9` is simultaneously
whitelisted and carries a block record: the request is forwarded with the
whitelisted marker and only the whitelist was consulted. -/
theorem whitelist_precedence_witness :
    ipsWlAndBlocked.blocked "198.51.100.9" ≠ none ∧
    ("X-Security-Bypass", "whitelisted")
      ∈ (dispatch defaultMWConfig ipsWlAndBlocked rlAlways reqApi
          handlerOk).1.headers ∧
    (dispatch defaultMWConfig ipsWlAndBlocked rlAlways reqApi handlerOk).2 =
      [MWAction.checkWhitelist "198.51.100.9", MWAction.callNext] := by
  have h := whitelist_precedence defaultMWConfig ipsWlAndBlocked rlAlways
    reqApi handlerOk (by decide) rfl rfl (by decide)
  exact ⟨by decide, h.2.1, h.2.2.1⟩

/-- C10: excluded-path bypass is prefix-based.  Whenever the request path
merely *starts with* any configured excluded path string, `dispatch`
returns the downstream handler's response unmodified and its trace is just
the handler call: no whitelist, block, rate-limit or validation check runs
and no security headers are added. -/
theorem excluded_path_prefix_bypass (cfg : MWConfig) (ips : IPStore)
    (rl : String → String → Bool × LimitInfoDict) (req : MWRequest)
    (handler : MWResponse) (e : String)
    (he : e ∈ cfg.excludedPaths) (hpre : pyStartsWith req.path e = true) :
    dispatch cfg ips rl req handler = (handler, [MWAction.callNext]) := by
  have hex : isExcludedPath cfg.excludedPaths req.path = true := by
    unfold isExcludedPath
    rw [List.any_eq_true]
    exact ⟨e, he, hpre⟩
  unfold dispatch
  simp [hex]

/-- Witness for C10: `/healthz` is not itself a configured excluded path,
but extends the default exclusion `/health`, so it is forwarded
unchecked. -/
theorem excluded_path_prefix_bypass_witness :
    reqHealthz.path ∉ defaultMWConfig.excludedPaths ∧
    dispatch defaultMWConfig ipsClean rlAlways reqHealthz handlerOk
      = (handlerOk, [MWAction.callNext]) := by
  refine ⟨by decide, ?_⟩
  exact excluded_path_prefix_bypass defaultMWConfig ipsClean rlAlways
    reqHealthz handlerOk "/health" (by decide) (by decide)

end AILaw
